import Mathlib

/-!
Verification of the per-tick flight dynamics integrator and camera mode
state machine of src/src/components/FlightSimulator.tsx.

The simulation keeps two pieces of state across ticks:
* aircraftState : position, rotation, velocity (THREE.Vector3 / Euler),
  carried at full precision;
* flightData : throttle, flaps, fuel, engineTemp (plus display-only
  fields), where fuel is stored as Math.round(newFuel * 10) / 10 and
  engineTemp as Math.round(newEngineTemp), and the interval closure reads
  these stored values on the next tick.

JavaScript numbers are modelled exactly: rationals for the resource
arithmetic and real numbers for the kinematics (which involve sin, cos
and pi).  Math.round x is the floor of x + 1/2 (round half towards
positive infinity), and the JavaScript remainder operator a % b is
a - b * truncate(a / b), keeping the sign of the dividend.
-/

/-- The set of currently held logical controls, one flag per key test in
the tick callback: shift / control (throttle), f / g (flaps),
w or arrowup / s or arrowdown (pitch), a or arrowleft / d or arrowright
(roll and coupled yaw). -/
structure Keys where
  shift : Bool
  ctrl : Bool
  fKey : Bool
  gKey : Bool
  keyW : Bool
  keyS : Bool
  keyA : Bool
  keyD : Bool

/-- 3D vector with real components (THREE.Vector3). -/
structure Vec3 where
  x : ℝ
  y : ℝ
  z : ℝ

/-- Euler angles in radians (THREE.Euler, default order XYZ). -/
structure Euler3 where
  x : ℝ
  y : ℝ
  z : ℝ

/-- Engine status enumeration displayed on the HUD. -/
inductive EngineStatus where
  | idle : EngineStatus
  | running : EngineStatus
  | fuelOut : EngineStatus
deriving DecidableEq

/-- Camera viewpoint modes. -/
inductive CameraMode where
  | chase : CameraMode
  | cockpit : CameraMode
  | free : CameraMode
deriving DecidableEq

/-- The state carried from one tick to the next: the kinematic state
(position, rotation, velocity) plus the accumulated resource fields of
flightData that the update formulas read (throttle, flaps, fuel,
engineTemp). -/
structure SimState where
  position : Vec3
  rotation : Euler3
  velocity : Vec3
  throttle : ℚ
  flaps : ℚ
  fuel : ℚ
  engineTemp : ℚ

/-- The display values written by setFlightData each tick. -/
structure FlightData where
  speed : ℤ
  altitude : ℤ
  heading : ℤ
  throttle : ℚ
  flaps : ℚ
  fuel : ℚ
  engineTemp : ℚ
  verticalSpeed : ℤ
  gForce : ℝ
  engineStatus : EngineStatus

/-- JavaScript Math.round on a rational: floor of x + 1/2. -/
def jround (x : ℚ) : ℤ := ⌊x + 1/2⌋

/-- Rounding to one decimal place: Math.round(x * 10) / 10. -/
def jround10 (x : ℚ) : ℚ := ((jround (x * 10) : ℚ)) / 10

/-- JavaScript Math.round on a real: floor of x + 1/2. -/
noncomputable def jroundR (x : ℝ) : ℤ := ⌊x + 1/2⌋

/-- Truncation towards zero, as used by the JavaScript remainder. -/
noncomputable def jsTrunc (x : ℝ) : ℤ := if x < 0 then -(⌊-x⌋) else ⌊x⌋

/-- The JavaScript remainder operator: a % b = a - b * trunc(a / b),
whose result takes the sign of the dividend a. -/
noncomputable def jsRem (a b : ℝ) : ℝ := a - b * ((jsTrunc (a / b) : ℤ) : ℝ)

/-- Derived heading: ((rotation.y * 180 / PI) + 360) % 360. -/
noncomputable def headingOf (yaw : ℝ) : ℝ :=
  jsRem (yaw * 180 / Real.pi + 360) 360

/-- Throttle update: if shift is held, newThrottle = min(100, t + 2);
then if control is held, newThrottle = max(0, newThrottle - 2). -/
def tickThrottle (k : Keys) (t : ℚ) : ℚ :=
  let t1 := if k.shift then min 100 (t + 2) else t
  if k.ctrl then max 0 (t1 - 2) else t1

/-- Flaps update: if f is held, newFlaps = min(40, fl + 10); then if g is
held, newFlaps = max(0, newFlaps - 10). -/
def tickFlaps (k : Keys) (fl : ℚ) : ℚ :=
  let f1 := if k.fKey then min 40 (fl + 10) else fl
  if k.gKey then max 0 (f1 - 10) else f1

/-- Attitude update.  Pitch: w/arrowup sets x = max(-PI/4, x - 0.02),
s/arrowdown sets x = min(PI/4, x + 0.02).  Roll and coupled yaw:
a/arrowleft sets z = min(PI/6, z + 0.03) and y = y - 0.01,
d/arrowright sets z = max(-PI/6, z - 0.03) and y = y + 0.01. -/
noncomputable def tickRot (k : Keys) (r : Euler3) : Euler3 :=
  let x1 := if k.keyW then max (-(Real.pi/4)) (r.x - 0.02) else r.x
  let x2 := if k.keyS then min (Real.pi/4) (x1 + 0.02) else x1
  let z1 := if k.keyA then min (Real.pi/6) (r.z + 0.03) else r.z
  let y1 := if k.keyA then r.y - 0.01 else r.y
  let z2 := if k.keyD then max (-(Real.pi/6)) (z1 - 0.03) else z1
  let y2 := if k.keyD then y1 + 0.01 else y1
  ⟨x2, y2, z2⟩

/-- Componentwise vector sum (Vector3.add). -/
noncomputable def vadd (a b : Vec3) : Vec3 := ⟨a.x + b.x, a.y + b.y, a.z + b.z⟩

/-- Scalar multiple of a vector (Vector3.multiplyScalar). -/
noncomputable def vscale (c : ℝ) (v : Vec3) : Vec3 := ⟨c * v.x, c * v.y, c * v.z⟩

/-- Euclidean length of a vector (Vector3.length). -/
noncomputable def vlength (v : Vec3) : ℝ := Real.sqrt (v.x ^ 2 + v.y ^ 2 + v.z ^ 2)

/-- Rotation about the x axis. -/
noncomputable def rotX (t : ℝ) (v : Vec3) : Vec3 :=
  ⟨v.x, Real.cos t * v.y - Real.sin t * v.z, Real.sin t * v.y + Real.cos t * v.z⟩

/-- Rotation about the y axis. -/
noncomputable def rotY (t : ℝ) (v : Vec3) : Vec3 :=
  ⟨Real.cos t * v.x + Real.sin t * v.z, v.y, -(Real.sin t) * v.x + Real.cos t * v.z⟩

/-- Rotation about the z axis. -/
noncomputable def rotZ (t : ℝ) (v : Vec3) : Vec3 :=
  ⟨Real.cos t * v.x - Real.sin t * v.y, Real.sin t * v.x + Real.cos t * v.y, v.z⟩

/-- Vector3.applyEuler with THREE's default XYZ order: the rotation
Rx(e.x) * Ry(e.y) * Rz(e.z) applied to v. -/
noncomputable def applyEuler (e : Euler3) (v : Vec3) : Vec3 :=
  rotX e.x (rotY e.y (rotZ e.z v))

/-- Full-precision fuel value computed by this tick:
max(0, fuel - (newThrottle / 100) * 0.02). -/
def rawFuel (k : Keys) (s : SimState) : ℚ :=
  max 0 (s.fuel - tickThrottle k s.throttle / 100 * 0.02)

/-- Full-precision engine temperature computed by this tick:
engineTemp + (targetTemp - engineTemp) * 0.1 with
targetTemp = 75 + (newThrottle / 100) * 50. -/
def tempRaw (k : Keys) (s : SimState) : ℚ :=
  s.engineTemp + ((75 + tickThrottle k s.throttle / 100 * 50) - s.engineTemp) * 0.1

/-- Engine status as computed at line 297:
newFuel > 0 && newThrottle > 0 ? RUNNING : newFuel <= 0 ? FUEL OUT : IDLE. -/
def engineStatusOf (fuel throttle : ℚ) : EngineStatus :=
  if 0 < fuel ∧ 0 < throttle then EngineStatus.running
  else if fuel ≤ 0 then EngineStatus.fuelOut
  else EngineStatus.idle

/-- Engine status as the specification words it: FUEL_OUT if fuel <= 0,
else RUNNING if throttle > 0, else IDLE.  Stated from the spec for
comparison with engineStatusOf, which is taken from the code. -/
def engineStatusSpec (fuel throttle : ℚ) : EngineStatus :=
  if fuel ≤ 0 then EngineStatus.fuelOut
  else if 0 < throttle then EngineStatus.running
  else EngineStatus.idle

/-- Ground collision clamp: if position.y < 0 then position.y = 0 and
velocity.y = 0, otherwise position and velocity are unchanged. -/
noncomputable def groundCollision (p v : Vec3) : Vec3 × Vec3 :=
  if p.y < 0 then (⟨p.x, 0, p.z⟩, ⟨v.x, 0, v.z⟩) else (p, v)

/-- Velocity after thrust, lift, gravity and drag:
v' = (v + applyEuler(rot', (0,0,thrust)) + (0, lift, 0) - (0, 0.01, 0)_y)
scaled by 0.98 / dragMultiplier, with
thrust = (newThrottle/100) * 0.5,
lift = |v| * sin(-pitch') * (1 + newFlaps/100) * 0.1,
dragMultiplier = 1 + newFlaps/200. -/
noncomputable def velNew (k : Keys) (s : SimState) : Vec3 :=
  let newThrottle := tickThrottle k s.throttle
  let newFlaps := tickFlaps k s.flaps
  let newRot := tickRot k s.rotation
  let thrust : ℝ := ((newThrottle : ℝ) / 100) * 0.5
  let forward := applyEuler newRot ⟨0, 0, thrust⟩
  let lift := vlength s.velocity * Real.sin (-(newRot.x)) * (1 + (newFlaps : ℝ) / 100) * 0.1
  let v1 := vadd (vadd s.velocity forward) ⟨0, lift, 0⟩
  let v2 : Vec3 := ⟨v1.x, v1.y - 0.01, v1.z⟩
  vscale (0.98 / (1 + (newFlaps : ℝ) / 200)) v2

/-- One tick of the interval callback: returns the state carried to the
next tick together with the FlightData written by setFlightData.
Mirrors lines 203-301 of FlightSimulator.tsx, in the source's order:
throttle, flaps, attitude, thrust, lift, gravity, drag, position
integration, ground collision, instrument derivation, fuel and engine
temperature accumulation.  Note that the stored fuel is
Math.round(newFuel * 10) / 10 and the stored engine temperature is
Math.round(newEngineTemp). -/
noncomputable def step (k : Keys) (s : SimState) : SimState × FlightData :=
  let newThrottle := tickThrottle k s.throttle
  let newFlaps := tickFlaps k s.flaps
  let newRot := tickRot k s.rotation
  let v3 := velNew k s
  let pv := groundCollision (vadd s.position v3) v3
  let verticalSpeed := (pv.1.y - s.position.y) * 600
  let gForce := |verticalSpeed / 100| + 1
  let rawF := rawFuel k s
  let tRaw := tempRaw k s
  (⟨pv.1, newRot, pv.2, newThrottle, newFlaps, jround10 rawF, ((jround tRaw : ℤ) : ℚ)⟩,
   ⟨jroundR (vlength pv.2 * 100), jroundR (max 0 (pv.1.y * 10)), jroundR (headingOf newRot.y),
    newThrottle, newFlaps, jround10 rawF, ((jround tRaw : ℤ) : ℚ), jroundR verticalSpeed,
    ((jroundR (gForce * 10) : ℤ) : ℝ) / 10, engineStatusOf rawF newThrottle⟩)

/-- The state carried to the next tick. -/
noncomputable def tick (k : Keys) (s : SimState) : SimState := (step k s).1

/-- The instrument snapshot written by this tick. -/
noncomputable def tickData (k : Keys) (s : SimState) : FlightData := (step k s).2

/-- The initial state: aircraft at the origin with zero velocity and
orientation, throttle 0, flaps 0, fuel 100, engineTemp 75. -/
noncomputable def initState : SimState :=
  ⟨⟨0, 0, 0⟩, ⟨0, 0, 0⟩, ⟨0, 0, 0⟩, 0, 0, 100, 75⟩

/-- Run the simulation from a given state through a list of per-tick
held-key snapshots. -/
noncomputable def runFrom : SimState → List Keys → SimState
  | s, [] => s
  | s, k :: ks => runFrom (tick k s) ks

/-- Run the simulation from the initial state. -/
noncomputable def run (ks : List Keys) : SimState := runFrom initState ks

/-- Camera mode cycle: modes = [chase, cockpit, free], next mode is
modes[(indexOf(current) + 1) % 3]. -/
def cameraModes : List CameraMode := [CameraMode.chase, CameraMode.cockpit, CameraMode.free]

/-- Index of a camera mode in the modes list. -/
def modeIndex : CameraMode → ℕ
  | CameraMode.chase => 0
  | CameraMode.cockpit => 1
  | CameraMode.free => 2

/-- The cycleCameraMode action. -/
def cycleCameraMode (m : CameraMode) : CameraMode :=
  (cameraModes.getD ((modeIndex m + 1) % cameraModes.length)) CameraMode.chase

/-- No keys held. -/
def kNone : Keys := ⟨false, false, false, false, false, false, false, false⟩

/-- Only throttle-up (shift) held. -/
def kShift : Keys := ⟨true, false, false, false, false, false, false, false⟩

/-- Only throttle-down (control) held. -/
def kCtrl : Keys := ⟨false, true, false, false, false, false, false, false⟩

/-- Both throttle controls held. -/
def kBoth : Keys := ⟨true, true, false, false, false, false, false, false⟩

/-- Only roll-left (a / arrowleft) held. -/
def kLeft : Keys := ⟨false, false, false, false, false, false, true, false⟩

/-- Concrete state with throttle 50 and fuel 100. -/
noncomputable def sC1 : SimState :=
  ⟨⟨0, 0, 0⟩, ⟨0, 0, 0⟩, ⟨0, 0, 0⟩, 50, 0, 100, 75⟩

/-- Concrete state with throttle 50 and fuel 3/10. -/
noncomputable def sW2 : SimState :=
  ⟨⟨0, 0, 0⟩, ⟨0, 0, 0⟩, ⟨0, 0, 0⟩, 50, 0, 3/10, 75⟩

/-- Concrete state with throttle 50 and fuel 1/100, which this tick's
consumption brings exactly to zero. -/
noncomputable def sW6 : SimState :=
  ⟨⟨0, 0, 0⟩, ⟨0, 0, 0⟩, ⟨0, 0, 0⟩, 50, 0, 1/100, 75⟩

/-- Pitch and roll of a state are inside the clamp ranges. -/
def RotOK (s : SimState) : Prop :=
  -(Real.pi/4) ≤ s.rotation.x ∧ s.rotation.x ≤ Real.pi/4 ∧
  -(Real.pi/6) ≤ s.rotation.z ∧ s.rotation.z ≤ Real.pi/6

theorem tick_fuel (k : Keys) (s : SimState) :
    (tick k s).fuel = jround10 (rawFuel k s) := rfl

theorem tick_engineTemp (k : Keys) (s : SimState) :
    (tick k s).engineTemp = ((jround (tempRaw k s) : ℤ) : ℚ) := rfl

theorem tick_throttle (k : Keys) (s : SimState) :
    (tick k s).throttle = tickThrottle k s.throttle := rfl

theorem tick_rotation (k : Keys) (s : SimState) :
    (tick k s).rotation = tickRot k s.rotation := rfl

theorem tick_position (k : Keys) (s : SimState) :
    (tick k s).position =
      (groundCollision (vadd s.position (velNew k s)) (velNew k s)).1 := rfl

theorem tickData_engineStatus (k : Keys) (s : SimState) :
    (tickData k s).engineStatus =
      engineStatusOf (rawFuel k s) (tickThrottle k s.throttle) := rfl

theorem tickThrottle_nonneg (k : Keys) (t : ℚ) (h : 0 ≤ t) : 0 ≤ tickThrottle k t := by
  simp only [tickThrottle]
  split_ifs <;>
    first
    | exact le_max_left _ _
    | exact le_min (by norm_num) (by linarith)
    | exact h

theorem tickThrottle_le (k : Keys) (t : ℚ) (h : t ≤ 100) : tickThrottle k t ≤ 100 := by
  simp only [tickThrottle]
  split_ifs <;>
    first
    | exact min_le_left _ _
    | exact h
    | (refine max_le (by norm_num) ?_
       have hmin := min_le_left (100 : ℚ) (t + 2)
       linarith)

theorem jround10_decimal_fixed (n : ℕ) (c : ℚ) (h0 : 0 ≤ c) (h1 : c ≤ 1/50) :
    jround10 (max 0 ((n : ℚ)/10 - c)) = (n : ℚ)/10 := by
  cases n with
  | zero =>
      have hm : max (0 : ℚ) ((0 : ℕ)/10 - c) = 0 := by
        apply max_eq_left
        push_cast
        linarith
      rw [hm]
      unfold jround10 jround
      norm_num
  | succ m =>
      have hpos : (0 : ℚ) ≤ ((m + 1 : ℕ) : ℚ)/10 - c := by
        have : (1 : ℚ) ≤ ((m + 1 : ℕ) : ℚ) := by exact_mod_cast Nat.one_le_iff_ne_zero.mpr (Nat.succ_ne_zero m)
        linarith
      rw [max_eq_right hpos]
      unfold jround10 jround
      have hfl : ⌊(((m + 1 : ℕ) : ℚ)/10 - c) * 10 + 1/2⌋ = ((m + 1 : ℕ) : ℤ) := by
        rw [Int.floor_eq_iff]
        constructor
        · push_cast
          linarith
        · push_cast
          linarith
      rw [hfl]
      push_cast
      ring

theorem engineStatusOf_eq_spec (f t : ℚ) : engineStatusOf f t = engineStatusSpec f t := by
  by_cases hf : f ≤ 0
  · have hnf : ¬ (0 < f ∧ 0 < t) := by
      rintro ⟨a, b⟩
      linarith
    simp [engineStatusOf, engineStatusSpec, hf, hnf]
  · have hf2 : 0 < f := lt_of_not_le hf
    by_cases ht : 0 < t
    · simp [engineStatusOf, engineStatusSpec, hf, ht, hf2]
    · have hnf : ¬ (0 < f ∧ 0 < t) := by
        rintro ⟨a, b⟩
        exact ht b
      simp [engineStatusOf, engineStatusSpec, hf, ht, hnf]

theorem engineStatusOf_ne_fuelOut (f t : ℚ) (h : 0 < f) :
    engineStatusOf f t ≠ EngineStatus.fuelOut := by
  unfold engineStatusOf
  by_cases h1 : 0 < f ∧ 0 < t
  · rw [if_pos h1]
    exact fun hc => EngineStatus.noConfusion hc
  · rw [if_neg h1, if_neg (not_le.mpr h)]
    exact fun hc => EngineStatus.noConfusion hc

theorem engineStatusOf_fuelOut (f t : ℚ) (h : f ≤ 0) :
    engineStatusOf f t = EngineStatus.fuelOut := by
  unfold engineStatusOf
  have h1 : ¬ (0 < f ∧ 0 < t) := by
    rintro ⟨a, _⟩
    linarith
  rw [if_neg h1, if_pos h]

/-- Claim C10: the camera-mode cycle is a pure step on
{CHASE, COCKPIT, FREE} advancing CHASE to COCKPIT to FREE and back to
CHASE, and applying it three times from any mode returns the starting
mode. -/
theorem camera_cycle_period_three :
    cycleCameraMode CameraMode.chase = CameraMode.cockpit ∧
    cycleCameraMode CameraMode.cockpit = CameraMode.free ∧
    cycleCameraMode CameraMode.free = CameraMode.chase ∧
    ∀ m : CameraMode, cycleCameraMode (cycleCameraMode (cycleCameraMode m)) = m := by
  refine ⟨rfl, rfl, rfl, ?_⟩
  intro m
  cases m <;> rfl

theorem tickThrottle_shift (t : ℚ) : tickThrottle kShift t = min 100 (t + 2) := rfl

theorem tickThrottle_ctrl (t : ℚ) : tickThrottle kCtrl t = max 0 (t - 2) := rfl

theorem tickThrottle_both (t : ℚ) : tickThrottle kBoth t = max 0 (min 100 (t + 2) - 2) := rfl

/-- Claim C5: the derived engine status is a pure function of this tick's
(fuel, throttle) values, equal to FUEL_OUT if fuel <= 0, else RUNNING if
throttle > 0, else IDLE; the tick recomputes it from those inputs. -/
theorem engine_status_pure_function :
    (∀ (k : Keys) (s : SimState),
      (tickData k s).engineStatus = engineStatusSpec (rawFuel k s) (tickThrottle k s.throttle)) ∧
    ∀ f t : ℚ, engineStatusOf f t = engineStatusSpec f t := by
  refine ⟨?_, engineStatusOf_eq_spec⟩
  intro k s
  rw [tickData_engineStatus]
  exact engineStatusOf_eq_spec _ _

/-- Claim C3 counterexample: at throttle 100 (reachable by holding
throttle-up for 50 ticks), holding both throttle controls in one tick
yields min(100, 102) = 100 followed by max(0, 98) = 98, a net change of
-2, not zero. -/
theorem throttle_both_counterexample :
    tickThrottle kBoth 100 = 98 ∧ ((98 : ℚ) ≠ 100) := by
  constructor
  · rw [tickThrottle_both,
      min_eq_left (by norm_num : (100 : ℚ) ≤ 100 + 2),
      max_eq_right (by norm_num : (0 : ℚ) ≤ 100 - 2)]
    norm_num
  · norm_num

/-- Claim C3 (amended): throttle-up alone gives min(100, t + 2) and
throttle-down alone gives max(0, t - 2); when both controls are held the
net change is zero for throttle values in [0, 98], while for values in
(98, 100] the upper clamp absorbs part of the increment and the result
is 98. -/
theorem throttle_update_amended :
    ∀ t : ℚ,
      tickThrottle kShift t = min 100 (t + 2) ∧
      tickThrottle kCtrl t = max 0 (t - 2) ∧
      (0 ≤ t → t ≤ 98 → tickThrottle kBoth t = t) ∧
      (98 < t → t ≤ 100 → tickThrottle kBoth t = 98) := by
  intro t
  refine ⟨tickThrottle_shift t, tickThrottle_ctrl t, ?_, ?_⟩
  · intro h0 h98
    rw [tickThrottle_both, min_eq_right (by linarith : t + 2 ≤ 100),
      show t + 2 - 2 = t from by ring, max_eq_right h0]
  · intro h98 h100
    rw [tickThrottle_both, min_eq_left (by linarith : (100 : ℚ) ≤ t + 2),
      max_eq_right (by norm_num : (0 : ℚ) ≤ 100 - 2)]
    norm_num

/-- Witness for the amended claim C3 at throttle 50. -/
theorem throttle_update_amended_witness : tickThrottle kBoth 50 = 50 :=
  (throttle_update_amended 50).2.2.1 (by norm_num) (by norm_num)

/-- Claim C1 (amended): the kinematic state (attitude shown here) is
carried at full precision, but the fuel and engine-temperature values the
next tick reads are the display-rounded ones: the stored fuel is the
full-precision fuel rounded to one decimal and the stored engine
temperature is the full-precision temperature rounded to the nearest
integer, identical to the displayed values. -/
theorem rounding_carried_state :
    ∀ (k : Keys) (s : SimState),
      (tick k s).fuel = jround10 (rawFuel k s) ∧
      (tick k s).engineTemp = ((jround (tempRaw k s) : ℤ) : ℚ) ∧
      (tick k s).fuel = (tickData k s).fuel ∧
      (tick k s).engineTemp = (tickData k s).engineTemp ∧
      (tick k s).rotation = tickRot k s.rotation :=
  fun _ _ => ⟨rfl, rfl, rfl, rfl, rfl⟩

/-- Claim C1 counterexample: with fuel 100, throttle 50 and no keys held,
the full-precision fuel result of the tick is 99.99, but the value stored
for the next tick to read is 100. -/
theorem rounding_carried_state_counterexample :
    rawFuel kNone sC1 = 9999/100 ∧ (tick kNone sC1).fuel = 100 ∧ ((100 : ℚ) ≠ 9999/100) := by
  have hraw : rawFuel kNone sC1 = 9999/100 := by
    unfold rawFuel
    rw [show tickThrottle kNone sC1.throttle = 50 from rfl,
      show sC1.fuel = 100 from rfl,
      max_eq_right (by norm_num)]
    norm_num
  refine ⟨hraw, ?_, by norm_num⟩
  rw [tick_fuel, hraw]
  unfold jround10 jround
  have hfl : ⌊(9999 : ℚ)/100 * 10 + 1/2⌋ = 1000 := by
    rw [Int.floor_eq_iff]
    constructor <;> norm_num
  rw [hfl]
  norm_num

theorem tick_fuel_decimal (k : Keys) (s : SimState) (hm : ∃ n : ℕ, s.fuel = (n : ℚ)/10)
    (h0 : 0 ≤ s.throttle) (h1 : s.throttle ≤ 100) : (tick k s).fuel = s.fuel := by
  obtain ⟨n, hn⟩ := hm
  rw [tick_fuel]
  have ht0 := tickThrottle_nonneg k s.throttle h0
  have ht1 := tickThrottle_le k s.throttle h1
  have hc0 : 0 ≤ tickThrottle k s.throttle / 100 * 0.02 := by
    apply mul_nonneg
    · exact div_nonneg ht0 (by norm_num)
    · norm_num
  have hc1 : tickThrottle k s.throttle / 100 * 0.02 ≤ 1/50 := by
    have h2 : tickThrottle k s.throttle / 100 * 0.02 = tickThrottle k s.throttle * (1/5000) := by
      ring
    rw [h2]
    linarith
  have hr : rawFuel k s = max 0 ((n : ℚ)/10 - tickThrottle k s.throttle / 100 * 0.02) := by
    unfold rawFuel
    rw [hn]
  rw [hr, jround10_decimal_fixed n _ hc0 hc1, hn]

theorem tick_fuel_100 (k : Keys) (s : SimState) (hf : s.fuel = 100) (h0 : 0 ≤ s.throttle)
    (h1 : s.throttle ≤ 100) : (tick k s).fuel = 100 := by
  have h := tick_fuel_decimal k s ⟨1000, by rw [hf]; norm_num⟩ h0 h1
  rw [h, hf]

theorem runFrom_fuel_100 : ∀ (ks : List Keys) (s : SimState),
    s.fuel = 100 → 0 ≤ s.throttle → s.throttle ≤ 100 →
    (runFrom s ks).fuel = 100 ∧ 0 ≤ (runFrom s ks).throttle ∧ (runFrom s ks).throttle ≤ 100 := by
  intro ks
  induction ks with
  | nil =>
      intro s hf h0 h1
      exact ⟨hf, h0, h1⟩
  | cons k ks ih =>
      intro s hf h0 h1
      have hth0 : 0 ≤ (tick k s).throttle := by
        rw [tick_throttle]
        exact tickThrottle_nonneg k s.throttle h0
      have hth1 : (tick k s).throttle ≤ 100 := by
        rw [tick_throttle]
        exact tickThrottle_le k s.throttle h1
      exact ih (tick k s) (tick_fuel_100 k s hf h0 h1) hth0 hth1

/-- Claim C2: a tick maps any stored fuel value that is a nonnegative
multiple of 0.1 back to itself (the per-tick consumption, at most 0.02
for throttle in [0, 100], is absorbed by the one-decimal rounding); in
particular the stored fuel stays exactly 100 from the initial state for
every input sequence, and the FUEL_OUT status is unreachable from the
initial state. -/
theorem fuel_rounding_fixpoint :
    (∀ (k : Keys) (s : SimState), (∃ n : ℕ, s.fuel = (n : ℚ)/10) →
        0 ≤ s.throttle → s.throttle ≤ 100 → (tick k s).fuel = s.fuel) ∧
    (∀ ks : List Keys, (run ks).fuel = 100) ∧
    (∀ (ks : List Keys) (k : Keys),
        (tickData k (run ks)).engineStatus ≠ EngineStatus.fuelOut) := by
  refine ⟨tick_fuel_decimal, ?_, ?_⟩
  · intro ks
    exact (runFrom_fuel_100 ks initState rfl (by norm_num [initState]) (by norm_num [initState])).1
  · intro ks k
    obtain ⟨hf, h0, h1⟩ :=
      runFrom_fuel_100 ks initState rfl (by norm_num [initState]) (by norm_num [initState])
    rw [show run ks = runFrom initState ks from rfl, tickData_engineStatus]
    apply engineStatusOf_ne_fuelOut
    have ht1 := tickThrottle_le k (runFrom initState ks).throttle h1
    have hx : (0 : ℚ) < (runFrom initState ks).fuel -
        tickThrottle k (runFrom initState ks).throttle / 100 * 0.02 := by
      have h2 : tickThrottle k (runFrom initState ks).throttle / 100 * 0.02 =
          tickThrottle k (runFrom initState ks).throttle * (1/5000) := by
        ring
      rw [hf, h2]
      linarith
    unfold rawFuel
    exact lt_of_lt_of_le hx (le_max_right _ _)

/-- Witness for claim C2 at fuel 3/10 and throttle 50. -/
theorem fuel_rounding_fixpoint_witness : (tick kNone sW2).fuel = sW2.fuel :=
  fuel_rounding_fixpoint.1 kNone sW2 ⟨3, by norm_num [sW2]⟩
    (by norm_num [sW2]) (by norm_num [sW2])

theorem jround10_zero : jround10 0 = 0 := by
  unfold jround10 jround
  rw [show (0 : ℚ) * 10 + 1/2 = 1/2 from by norm_num]
  rw [show ⌊(1/2 : ℚ)⌋ = 0 from by
    rw [Int.floor_eq_zero_iff, Set.mem_Ico]
    constructor <;> norm_num]
  norm_num

theorem rawFuel_fuel_zero (k : Keys) (s : SimState) (hf : s.fuel = 0) (h0 : 0 ≤ s.throttle) :
    rawFuel k s = 0 := by
  unfold rawFuel
  rw [hf]
  apply max_eq_left
  have ht := tickThrottle_nonneg k s.throttle h0
  have h2 : 0 ≤ tickThrottle k s.throttle / 100 * 0.02 := by
    apply mul_nonneg
    · exact div_nonneg ht (by norm_num)
    · norm_num
  linarith

theorem tick_fuel_zero (k : Keys) (s : SimState) (hf : s.fuel = 0) (h0 : 0 ≤ s.throttle) :
    (tick k s).fuel = 0 := by
  rw [tick_fuel, rawFuel_fuel_zero k s hf h0, jround10_zero]

theorem runFrom_fuel_zero : ∀ (ks : List Keys) (s : SimState),
    s.fuel = 0 → 0 ≤ s.throttle →
    (runFrom s ks).fuel = 0 ∧ 0 ≤ (runFrom s ks).throttle := by
  intro ks
  induction ks with
  | nil =>
      intro s hf h0
      exact ⟨hf, h0⟩
  | cons k ks ih =>
      intro s hf h0
      have hth0 : 0 ≤ (tick k s).throttle := by
        rw [tick_throttle]
        exact tickThrottle_nonneg k s.throttle h0
      exact ih (tick k s) (tick_fuel_zero k s hf h0) hth0

/-- Claim C6: if a tick's full-precision fuel result is exactly 0 while
the tick's throttle is positive, the engine status is FUEL_OUT on that
tick and on every subsequent tick, for every continuation of the input
sequence. -/
theorem fuel_out_absorbing :
    ∀ (k : Keys) (s : SimState), rawFuel k s = 0 → 0 < tickThrottle k s.throttle →
      (tickData k s).engineStatus = EngineStatus.fuelOut ∧
      ∀ (ks : List Keys) (kf : Keys),
        (tickData kf (runFrom (tick k s) ks)).engineStatus = EngineStatus.fuelOut := by
  intro k s hraw ht
  constructor
  · rw [tickData_engineStatus, hraw]
    exact engineStatusOf_fuelOut 0 _ le_rfl
  · intro ks kf
    have h0 : 0 ≤ (tick k s).throttle := by
      rw [tick_throttle]
      linarith
    have hf0 : (tick k s).fuel = 0 := by
      rw [tick_fuel, hraw, jround10_zero]
    obtain ⟨hfz, hthz⟩ := runFrom_fuel_zero ks (tick k s) hf0 h0
    rw [tickData_engineStatus, rawFuel_fuel_zero kf _ hfz hthz]
    exact engineStatusOf_fuelOut 0 _ le_rfl

/-- Witness for claim C6: fuel 1/100 with throttle 50 is consumed to
exactly 0 in one tick, and the status reads FUEL_OUT. -/
theorem fuel_out_absorbing_witness :
    (tickData kNone sW6).engineStatus = EngineStatus.fuelOut :=
  (fuel_out_absorbing kNone sW6
    (by
      unfold rawFuel
      rw [show tickThrottle kNone sW6.throttle = 50 from rfl,
        show sW6.fuel = 1/100 from rfl]
      norm_num)
    (by
      rw [show tickThrottle kNone sW6.throttle = 50 from rfl]
      norm_num)).1

theorem tickRot_x_mem (k : Keys) (r : Euler3)
    (h1 : -(Real.pi/4) ≤ r.x) (h2 : r.x ≤ Real.pi/4) :
    -(Real.pi/4) ≤ (tickRot k r).x ∧ (tickRot k r).x ≤ Real.pi/4 := by
  have hB : (0 : ℝ) ≤ Real.pi/4 := by linarith [Real.pi_pos]
  simp only [tickRot]
  split_ifs with hs hw hw2
  · constructor
    · refine le_min (by linarith) ?_
      have hm := le_max_left (-(Real.pi/4)) (r.x - 0.02)
      linarith
    · exact min_le_left _ _
  · exact ⟨le_min (by linarith) (by linarith), min_le_left _ _⟩
  · exact ⟨le_max_left _ _, max_le (by linarith) (by linarith)⟩
  · exact ⟨h1, h2⟩

theorem tickRot_z_mem (k : Keys) (r : Euler3)
    (h1 : -(Real.pi/6) ≤ r.z) (h2 : r.z ≤ Real.pi/6) :
    -(Real.pi/6) ≤ (tickRot k r).z ∧ (tickRot k r).z ≤ Real.pi/6 := by
  have hB : (0 : ℝ) ≤ Real.pi/6 := by linarith [Real.pi_pos]
  simp only [tickRot]
  split_ifs with hd ha ha2
  · constructor
    · exact le_max_left _ _
    · refine max_le (by linarith) ?_
      have hm := min_le_left (Real.pi/6) (r.z + 0.03)
      linarith
  · exact ⟨le_max_left _ _, max_le (by linarith) (by linarith)⟩
  · exact ⟨le_min (by linarith) (by linarith), min_le_left _ _⟩
  · exact ⟨h1, h2⟩

theorem tick_rotOK (k : Keys) (s : SimState) (h : RotOK s) : RotOK (tick k s) := by
  obtain ⟨h1, h2, h3, h4⟩ := h
  have hx := tickRot_x_mem k s.rotation h1 h2
  have hz := tickRot_z_mem k s.rotation h3 h4
  unfold RotOK
  rw [tick_rotation]
  exact ⟨hx.1, hx.2, hz.1, hz.2⟩

theorem runFrom_rotOK : ∀ (ks : List Keys) (s : SimState), RotOK s → RotOK (runFrom s ks) := by
  intro ks
  induction ks with
  | nil =>
      intro s h
      exact h
  | cons k ks ih =>
      intro s h
      exact ih (tick k s) (tick_rotOK k s h)

theorem initState_rotOK : RotOK initState := by
  have hπ := Real.pi_pos
  refine ⟨?_, ?_, ?_, ?_⟩
  · show -(Real.pi/4) ≤ (0 : ℝ)
    linarith
  · show (0 : ℝ) ≤ Real.pi/4
    linarith
  · show -(Real.pi/6) ≤ (0 : ℝ)
    linarith
  · show (0 : ℝ) ≤ Real.pi/6
    linarith

/-- Claim C7: from the initial zero orientation, after every tick of any
input sequence the pitch angle stays in [-PI/4, PI/4] and the roll angle
stays in [-PI/6, PI/6]. -/
theorem attitude_clamped :
    ∀ ks : List Keys,
      -(Real.pi/4) ≤ (run ks).rotation.x ∧ (run ks).rotation.x ≤ Real.pi/4 ∧
      -(Real.pi/6) ≤ (run ks).rotation.z ∧ (run ks).rotation.z ≤ Real.pi/6 :=
  fun ks => runFrom_rotOK ks initState initState_rotOK

theorem jroundR_nonneg (x : ℝ) (h : 0 ≤ x) : 0 ≤ jroundR x := by
  unfold jroundR
  apply Int.le_floor.mpr
  push_cast
  linarith

theorem groundCollision_y_nonneg (p v : Vec3) : 0 ≤ (groundCollision p v).1.y := by
  unfold groundCollision
  split_ifs with h
  · exact le_rfl
  · exact le_of_not_lt h

/-- Claim C8: after the ground-collision step, position.y and the derived
altitude are nonnegative on every tick; the collision step sets
position.y and velocity.y to exactly 0 when the pre-clamp position.y is
below 0, and leaves states with nonnegative pre-clamp position.y
unchanged. -/
theorem ground_collision_clamp :
    (∀ (k : Keys) (s : SimState),
        0 ≤ (tick k s).position.y ∧ 0 ≤ (tickData k s).altitude) ∧
    ∀ p v : Vec3,
      (p.y < 0 → groundCollision p v = (⟨p.x, 0, p.z⟩, ⟨v.x, 0, v.z⟩)) ∧
      (0 ≤ p.y → groundCollision p v = (p, v)) := by
  constructor
  · intro k s
    constructor
    · rw [tick_position]
      exact groundCollision_y_nonneg _ _
    · have h : (tickData k s).altitude =
          jroundR (max 0
            ((groundCollision (vadd s.position (velNew k s)) (velNew k s)).1.y * 10)) := rfl
      rw [h]
      exact jroundR_nonneg _ (le_max_left _ _)
  · intro p v
    constructor
    · intro h
      unfold groundCollision
      rw [if_pos h]
    · intro h
      unfold groundCollision
      rw [if_neg (not_lt.mpr h)]

/-- Witness for claim C8's conditional parts at a concrete colliding
input. -/
theorem ground_collision_clamp_witness :
    groundCollision ⟨0, -1, 0⟩ ⟨2, 3, 4⟩ = (⟨0, 0, 0⟩, ⟨2, 0, 4⟩) :=
  (ground_collision_clamp.2 ⟨0, -1, 0⟩ ⟨2, 3, 4⟩).1 (by norm_num)

/-- Claim C9: the derived vertical speed is (new position.y - pre-tick
position.y) * 600, where the new height is taken after the collision
clamp and the pre-tick height is the one recorded before integration, and
the derived g-force is |verticalSpeed| / 100 + 1 (each rounded for
display: vertical speed to an integer, g-force to one decimal). -/
theorem vertical_speed_formula :
    ∀ (k : Keys) (s : SimState),
      (tickData k s).verticalSpeed =
        jroundR (((tick k s).position.y - s.position.y) * 600) ∧
      (tickData k s).gForce =
        ((jroundR ((|((tick k s).position.y - s.position.y) * 600| / 100 + 1) * 10) : ℤ) : ℝ) / 10 := by
  intro k s
  constructor
  · rfl
  · have h : (tickData k s).gForce =
        ((jroundR ((|(((tick k s).position.y - s.position.y) * 600) / 100| + 1) * 10) : ℤ) : ℝ) / 10 := rfl
    rw [h, abs_div]
    norm_num

theorem jsRem_nonneg_lt (a : ℝ) (h : 0 ≤ a) : 0 ≤ jsRem a 360 ∧ jsRem a 360 < 360 := by
  unfold jsRem jsTrunc
  have hd : 0 ≤ a / 360 := div_nonneg h (by norm_num)
  rw [if_neg (not_lt.mpr hd)]
  have h1 : ((⌊a / 360⌋ : ℤ) : ℝ) ≤ a / 360 := Int.floor_le _
  have h2 : a / 360 < ((⌊a / 360⌋ : ℤ) : ℝ) + 1 := Int.lt_floor_add_one _
  constructor
  · linarith
  · linarith

theorem jsRem_neg_small (a : ℝ) (h1 : -360 < a) (h2 : a < 0) : jsRem a 360 = a := by
  unfold jsRem jsTrunc
  have hx : a / 360 < 0 := div_neg_of_neg_of_pos h2 (by norm_num)
  rw [if_pos hx]
  have hfl : ⌊-(a / 360)⌋ = 0 := by
    rw [Int.floor_eq_zero_iff, Set.mem_Ico]
    constructor
    · linarith
    · linarith
  rw [hfl]
  push_cast
  ring

theorem tick_yaw_left (s : SimState) : (tick kLeft s).rotation.y = s.rotation.y - 0.01 := by
  rw [tick_rotation]
  simp [tickRot, kLeft]

theorem runFrom_left_yaw : ∀ (n : ℕ) (s : SimState),
    (runFrom s (List.replicate n kLeft)).rotation.y = s.rotation.y - n * 0.01 := by
  intro n
  induction n with
  | zero =>
      intro s
      simp [runFrom]
  | succ m ih =>
      intro s
      rw [List.replicate_succ]
      have h : runFrom s (kLeft :: List.replicate m kLeft) =
          runFrom (tick kLeft s) (List.replicate m kLeft) := rfl
      rw [h, ih (tick kLeft s), tick_yaw_left]
      push_cast
      ring

/-- Claim C4 counterexample: after 700 ticks of holding roll-left from
the initial state, the yaw is -7 rad, so yaw in degrees plus 360 is about
-41.07, and the JavaScript remainder keeps the dividend's sign: the
derived heading is negative, outside [0, 360). -/
theorem heading_range_counterexample :
    headingOf ((run (List.replicate 700 kLeft)).rotation.y) < 0 := by
  have hy : (run (List.replicate 700 kLeft)).rotation.y = -7 := by
    rw [show run (List.replicate 700 kLeft) =
        runFrom initState (List.replicate 700 kLeft) from rfl,
      runFrom_left_yaw 700 initState,
      show initState.rotation.y = 0 from rfl]
    norm_num
  rw [hy]
  unfold headingOf
  have hπ := Real.pi_pos
  have hp1 : Real.pi < 3.15 := Real.pi_lt_d2
  have hp2 : 3 < Real.pi := Real.pi_gt_three
  have h400 : (400 : ℝ) * Real.pi < 1260 := by nlinarith
  have h420 : (1260 : ℝ) < 420 * Real.pi := by nlinarith
  have hub : (1260 : ℝ) / Real.pi < 420 := (div_lt_iff₀ hπ).mpr h420
  have hlb : (400 : ℝ) < 1260 / Real.pi := (lt_div_iff₀ hπ).mpr h400
  have hexp : (-7 : ℝ) * 180 / Real.pi = -(1260 / Real.pi) := by ring
  rw [hexp, jsRem_neg_small (-(1260 / Real.pi) + 360) (by linarith) (by linarith)]
  linarith

/-- Claim C4 (amended): for every reachable state whose stored yaw is at
least -2 PI (so that yaw in degrees plus 360 is nonnegative), the derived
heading lies in [0, 360); below that, the JavaScript remainder keeps the
sign of its dividend and the heading is negative. -/
theorem heading_range_amended :
    ∀ ks : List Keys, -(2 * Real.pi) ≤ (run ks).rotation.y →
      0 ≤ headingOf ((run ks).rotation.y) ∧ headingOf ((run ks).rotation.y) < 360 := by
  intro ks h
  have hπ := Real.pi_pos
  have hne : Real.pi ≠ 0 := ne_of_gt hπ
  unfold headingOf
  apply jsRem_nonneg_lt
  have h2 : 0 ≤ (run ks).rotation.y * 180 + 360 * Real.pi := by linarith
  have h3 : 0 ≤ ((run ks).rotation.y * 180 + 360 * Real.pi) / Real.pi :=
    div_nonneg h2 (le_of_lt hπ)
  have h4 : ((run ks).rotation.y * 180 + 360 * Real.pi) / Real.pi =
      (run ks).rotation.y * 180 / Real.pi + 360 := by
    field_simp
  rw [h4] at h3
  exact h3

/-- Witness for the amended claim C4 with the empty input sequence. -/
theorem heading_range_amended_witness :
    0 ≤ headingOf ((run []).rotation.y) ∧ headingOf ((run []).rotation.y) < 360 :=
  heading_range_amended []
    (by
      rw [show (run []).rotation.y = 0 from rfl]
      linarith [Real.pi_pos])
